import Mathlib

/-!
Verification of the marketplace messaging core
(`src/models.py`, `src/routers/messages.py`).

Ids (`PydanticObjectId` values) are modelled by their canonical string
rendering (lowercase hex, as `str(ObjectId)` produces).  Request
parameters that the router uses only through the `PydanticObjectId(...)`
parse are modelled as already-parsed canonical ids; `send_message`'s
`receiver_id` is the exception and stays the raw client string, with
`pyObjectId` modelling the parse, because `messages.py` line 67 compares
the raw string itself before it is ever parsed.  The parse-failure
branches (`PydanticObjectId(...)` raising on a non-hex string, HTTP 400)
are outside every claim and are not modelled.  Timestamps are modelled
as `Nat`; the router sorts inbox rows
by the `isoformat()` string of `created_at`, and for a fixed clock the
ISO rendering is order-isomorphic to the underlying time, so the sort is
modelled directly on the numeric timestamp.
-/

namespace Marketplace

/-- A user document (`models.py`, `class User`), restricted to the fields
the messaging router reads: the id and the display-name fields. -/
structure User where
  id : String
  first_name : String
  last_name : String
deriving DecidableEq, Repr

/-- The value of `"$id"` inside a dict-shaped seller reference: either the
nested `{"$oid": ...}` wrapper or a raw value (`messages.py` lines 46-50). -/
inductive DollarIdVal where
  | oid (v : String)
  | raw (v : String)
deriving DecidableEq, Repr

/-- A dict-shaped seller reference: the value stored under `"id"` if that
key is present, and the value stored under `"$id"` if that key is present
(`messages.py` lines 43-50).  Values are modelled already stringified. -/
structure SellerDict where
  idKey : Option String
  dollarId : Option DollarIdVal
deriving DecidableEq, Repr

/-- The heterogeneous stored shapes of `Product.seller`
(`messages.py`, `_product_seller_id`): a lazy `Link[User]` (whose fetch
yields a document with the link's id), a dict, a bare string, or anything
else. -/
inductive SellerVal where
  | link (uid : String)
  | dict (d : SellerDict)
  | str (s : String)
  | other
deriving DecidableEq, Repr

/-- A product document (`models.py`, `class Product`), restricted to the
fields the messaging router reads. -/
structure Product where
  id : String
  product_name : String
  price_usd : Int
  seller : SellerVal
  images : List String
  is_sold : Bool
deriving DecidableEq, Repr

/-- Modelled from the spec: the persisted `Message` entity (spec §3) with
its optional `listing_id` reference (`product` link).  The declaration in
`src/models.py` lines 77-85 omits the `product` field even though
`routers/messages.py` constructs it (line 103) and queries it
(`"product.$id"` / `"product": None` filters); the claim about that
omission is settled separately over `messageModelFields` below, and the
rest of the development uses the record the router is written against. -/
structure Message where
  id : String
  sender : String
  receiver : String
  content : String
  product : Option String
  created_at : Nat
  is_read : Bool
deriving DecidableEq, Repr

/-- The backing store: the three Beanie collections. -/
structure DB where
  users : List User
  products : List Product
  messages : List Message
deriving DecidableEq, Repr

/-- Request body for message creation (`messages.py`, `MessageCreate`). -/
structure MessageCreate where
  receiver_id : String
  content : String
  product_id : Option String
deriving DecidableEq, Repr

/-- `str(x)` applied to an optional id, as Python renders it:
`str(None) = "None"` (`messages.py` line 93 applies `str` to the result of
`_product_seller_id`, which may be `None`). -/
def pyStr : Option String → String
  | some s => s
  | none => "None"

/-- Python's `x or y` on an optional string: `None` and the empty string
are falsy (`messages.py` line 164, `product_id or 'no_product'`). -/
def pyOr (x : Option String) (d : String) : String :=
  match x with
  | some s => if s = "" then d else s
  | none => d

/-- `PydanticObjectId(s)` (`messages.py` lines 71-75): `bson.ObjectId`
accepts a 24-character hex string case-insensitively (`bytes.fromhex`)
and renders canonically in lowercase, so parsing normalizes the raw
client string to the canonical lowercase rendering that stored ids and
`str(...)` comparisons use.  (Lowercasing is written over the character
list — the same function as `String.toLower` — so that it evaluates by
kernel reduction.) -/
def pyObjectId (s : String) : String := ⟨s.data.map Char.toLower⟩

/-- `_product_seller_id` (`messages.py` lines 29-56): normalize the seller
id from a `Product.seller` link or the various stored shapes.  The link
branch is tried first (`hasattr(s, "fetch")`), then the dict keys `"id"`
and `"$id"` in that order, then a bare string; anything else yields
`none`. -/
def _product_seller_id : SellerVal → Option String
  | .link uid => some uid
  | .dict d =>
    match d.idKey with
    | some v => some v
    | none =>
      match d.dollarId with
      | some (.oid v) => some v
      | some (.raw v) => some v
      | none => none
  | .str s => some s
  | .other => none

/-- Errors raised by `send_message` (`messages.py` lines 62-107), one per
`HTTPException` site. -/
inductive SendError where
  | cannotMessageSelf
  | receiverNotFound
  | productNotFound
  | itemSold
deriving DecidableEq, Repr

/-- The HTTP status code each `send_message` error is raised with.  Note
that the sold-item lockout is raised with status 400 (`messages.py` line
95). -/
def SendError.statusCode : SendError → Nat
  | .cannotMessageSelf => 400
  | .receiverNotFound => 404
  | .productNotFound => 404
  | .itemSold => 400

/-- The `detail` string of each `send_message` error. -/
def SendError.detail : SendError → String
  | .cannotMessageSelf => "Cannot send message to yourself"
  | .receiverNotFound => "Receiver not found"
  | .productNotFound => "Product not found"
  | .itemSold => "This item has been sold. Messaging is closed."

/-- `send_message` (`messages.py` lines 62-107).  `now` is the value of
`datetime.utcnow()` and `newId` the id the store assigns on insert.  The
result pairs the HTTP outcome with the store after the call: on every
error path the handler raises before `message.insert()`, so the store is
returned unchanged.  `data.receiver_id` is the raw client string: line
67 compares it to `str(current_user.id)` as-is, while lines 72-75 parse
it (`pyObjectId`) before the `User.get` lookup — the two are not the
same function of the input.  `data.product_id` is used only through its
parse (lines 82-86), so it is modelled as the canonical id. -/
def send_message (db : DB) (current_user : User) (data : MessageCreate)
    (now : Nat) (newId : String) : Except SendError Message × DB :=
  if data.receiver_id == current_user.id then
    (.error .cannotMessageSelf, db)
  else
    match db.users.find? (fun u => u.id == pyObjectId data.receiver_id) with
    | none => (.error .receiverNotFound, db)
    | some receiver =>
      match data.product_id with
      | none =>
        let message : Message :=
          { id := newId, sender := current_user.id, receiver := receiver.id,
            content := data.content, product := none, created_at := now,
            is_read := false }
        (.ok message, { db with messages := db.messages ++ [message] })
      | some pid =>
        match db.products.find? (fun p => p.id == pid) with
        | none => (.error .productNotFound, db)
        | some product_doc =>
          if product_doc.is_sold
              && !(current_user.id == pyStr (_product_seller_id product_doc.seller)) then
            (.error .itemSold, db)
          else
            let message : Message :=
              { id := newId, sender := current_user.id, receiver := receiver.id,
                content := data.content, product := some product_doc.id,
                created_at := now, is_read := false }
            (.ok message, { db with messages := db.messages ++ [message] })

/-- `get_unread_count` (`messages.py` lines 129-134): count of messages
with `receiver.$id = current_user.id` and `is_read = False`. -/
def get_unread_count (db : DB) (meId : String) : Nat :=
  (db.messages.filter (fun m => m.receiver == meId && m.is_read == false)).length

/-- The Mongo filter of `get_inbox` (`messages.py` lines 144-146): every
message in which the current user is sender or receiver. -/
def involvedMessages (db : DB) (meId : String) : List Message :=
  db.messages.filter (fun m => m.sender == meId || m.receiver == meId)

/-- Newest-first ordering on messages (`created_at DESCENDING`). -/
def newerFirst (a b : Message) : Prop := b.created_at ≤ a.created_at

instance : DecidableRel newerFirst := fun _ _ => inferInstanceAs (Decidable (_ ≤ _))

instance : IsTotal Message newerFirst := ⟨fun a b => le_total b.created_at a.created_at⟩

instance : IsTrans Message newerFirst := ⟨fun _ _ _ h h2 => le_trans h2 h⟩

/-- Oldest-first ordering on messages (`sort("created_at")`). -/
def olderFirst (a b : Message) : Prop := a.created_at ≤ b.created_at

instance : DecidableRel olderFirst := fun _ _ => inferInstanceAs (Decidable (_ ≤ _))

instance : IsTotal Message olderFirst := ⟨fun a b => le_total a.created_at b.created_at⟩

instance : IsTrans Message olderFirst := ⟨fun _ _ _ h h2 => le_trans h h2⟩

/-- The scan order of `get_inbox`: all involved messages, newest first. -/
def inboxScan (db : DB) (meId : String) : List Message :=
  List.insertionSort newerFirst (involvedMessages db meId)

/-- The counterpart of a message from the viewpoint of `meId`
(`messages.py` line 156: `receiver if sender.id == current_user.id else
sender`). -/
def otherOf (meId : String) (m : Message) : String :=
  if m.sender == meId then m.receiver else m.sender

/-- The product document referenced by a message, resolved against the
store (`await msg.product.fetch() if msg.product else None`; a dangling
link fetch yields `None`). -/
def resolvedProduct (db : DB) (m : Message) : Option Product :=
  m.product.bind (fun pid => db.products.find? (fun p => p.id == pid))

/-- The conversation key of `get_inbox` (`messages.py` line 164):
`f"{other_user_id}::{product_id or 'no_product'}"`. -/
def convKey (db : DB) (meId : String) (m : Message) : String :=
  otherOf meId m ++ "::" ++ pyOr ((resolvedProduct db m).map (fun p => p.id)) "no_product"

/-- The preview text (`messages.py` line 166):
`msg.content[:40] + "..." if len(msg.content) > 40 else msg.content`. -/
def previewText (content : String) : String :=
  if content.length > 40 then content.take 40 ++ "..." else content

/-- The per-conversation unread count query (`messages.py` lines 169-178):
sender is the counterpart, receiver is the current user, `is_read` false,
and the product scope matches (`"product.$id": pid` when the conversation
is listing-scoped, `"product": None` — which also matches a missing field
— otherwise). -/
def unreadCountFor (db : DB) (meId other : String) (scope : Option String) : Nat :=
  (db.messages.filter (fun m =>
    m.sender == other && m.receiver == meId && m.is_read == false
      && m.product == scope)).length

/-- The display name rendered for a user id
(`f"{u.first_name} {u.last_name}"` after `fetch()`; totalized with `""`
for a dangling link, which no claim exercises). -/
def displayName (db : DB) (uid : String) : String :=
  match db.users.find? (fun u => u.id == uid) with
  | some u => u.first_name ++ " " ++ u.last_name
  | none => ""

/-- One inbox row (`messages.py` lines 180-197). -/
structure ConvSummary where
  user_id : String
  user_name : String
  preview : String
  last_message : String
  sent_by_me : Bool
  timestamp : Nat
  is_read : Bool
  unread_count : Nat
  product_id : Option String
  product_name : Option String
  product_is_sold : Option Bool
  product_price_usd : Option Int
  product_image : Option String
deriving DecidableEq, Repr

/-- The inbox row built from a representative message (`messages.py`
lines 166-197). -/
def mkSummary (db : DB) (meId : String) (m : Message) : ConvSummary :=
  let other := otherOf meId m
  let pdoc := resolvedProduct db m
  { user_id := other
    user_name := displayName db other
    preview := previewText m.content
    last_message := m.content
    sent_by_me := m.sender == meId
    timestamp := m.created_at
    is_read := m.is_read
    unread_count := unreadCountFor db meId other (pdoc.map (fun p => p.id))
    product_id := pdoc.map (fun p => p.id)
    product_name := pdoc.map (fun p => p.product_name)
    product_is_sold := pdoc.map (fun p => p.is_sold)
    product_price_usd := pdoc.map (fun p => p.price_usd)
    product_image := pdoc.bind (fun p => p.images.head?) }

/-- One step of the inbox grouping loop (`messages.py` lines 152-197):
Python dicts preserve insertion order, so `conversations` is an
association list to which a key is appended the first time it is seen. -/
def inboxStep (db : DB) (meId : String) (acc : List (String × ConvSummary))
    (m : Message) : List (String × ConvSummary) :=
  let key := convKey db meId m
  if acc.any (fun p => p.1 == key) then acc
  else acc ++ [(key, mkSummary db meId m)]

/-- Most-recent-conversation-first ordering on inbox rows
(`sorted(..., key=lambda x: x["timestamp"], reverse=True)`; Python's sort
is stable, as is `insertionSort`). -/
def tsDesc (a b : ConvSummary) : Prop := b.timestamp ≤ a.timestamp

instance : DecidableRel tsDesc := fun _ _ => inferInstanceAs (Decidable (_ ≤ _))

instance : IsTotal ConvSummary tsDesc := ⟨fun a b => le_total b.timestamp a.timestamp⟩

instance : IsTrans ConvSummary tsDesc := ⟨fun _ _ _ h h2 => le_trans h2 h⟩

/-- The `conversations` dict of `get_inbox` after the grouping loop
(`messages.py` lines 151-197), as an insertion-ordered association
list. -/
def inboxConvs (db : DB) (meId : String) : List (String × ConvSummary) :=
  (inboxScan db meId).foldl (inboxStep db meId) []

/-- `get_inbox` (`messages.py` lines 140-201). -/
def get_inbox (db : DB) (meId : String) : List ConvSummary :=
  List.insertionSort tsDesc ((inboxConvs db meId).map (fun p => p.2))

/-- The conversation key reconstructed from an inbox row's own fields. -/
def summaryKey (c : ConvSummary) : String :=
  c.user_id ++ "::" ++ pyOr c.product_id "no_product"

/-- Errors raised by `get_conversation` (`messages.py` lines 207-231). -/
inductive ConvError where
  | userNotFound
  | productNotFound
deriving DecidableEq, Repr

/-- One serialized thread entry (`messages.py` lines 248-258). -/
structure ThreadEntry where
  id : String
  content : String
  sent_by_me : Bool
  is_read : Bool
  created_at : Nat
deriving DecidableEq, Repr

/-- The `other_user` block of the thread response. -/
structure OtherUserInfo where
  id : String
  name : String
deriving DecidableEq, Repr

/-- The `product` block of the thread response. -/
structure ProductInfo where
  id : String
  name : String
  is_sold : Bool
  price_usd : Int
  image : Option String
deriving DecidableEq, Repr

/-- The thread response (`messages.py` lines 265-282). -/
structure ThreadView where
  other_user : OtherUserInfo
  product : Option ProductInfo
  messages : List ThreadEntry
deriving DecidableEq, Repr

/-- The thread query predicate (`messages.py` lines 234-238): both
directions between the two users, and the product scope filter
(`"product.$id": pid` or `"product": None`). -/
def threadFilter (meId otherId : String) (scope : Option String) (m : Message) : Bool :=
  ((m.sender == meId && m.receiver == otherId)
      || (m.sender == otherId && m.receiver == meId))
    && m.product == scope

/-- The messages of one thread, oldest first (`messages.py` lines
240-244). -/
def threadMessages (db : DB) (meId otherId : String) (scope : Option String) :
    List Message :=
  List.insertionSort olderFirst (db.messages.filter (threadFilter meId otherId scope))

/-- Serialization of one thread message (`messages.py` lines 248-258);
`is_read` is read from the stored document as it was fetched. -/
def serializeEntry (meId : String) (m : Message) : ThreadEntry :=
  { id := m.id, content := m.content, sent_by_me := m.sender == meId,
    is_read := m.is_read, created_at := m.created_at }

/-- The bulk read-flip (`messages.py` lines 261-263): `update_many` with
`$set {is_read: true}` on messages from the counterpart to the current
user in the requested product scope. -/
def readFlip (meId otherId : String) (scope : Option String) (m : Message) : Message :=
  if m.sender == otherId && m.receiver == meId && m.product == scope then
    { m with is_read := true }
  else m

/-- `get_conversation` (`messages.py` lines 207-282).  The result pairs
the response with the store after the call: serialization reads the store
fetched before the `update_many`, and the returned store reflects the
read-flip.  `other_user_id` and `product_id` are used only through the
`PydanticObjectId` parse (lines 214-217 and 225-228) — never compared as
raw strings — so they are modelled as canonical ids. -/
def get_conversation (db : DB) (meId : String) (other_user_id : String)
    (product_id : Option String) : Except ConvError (ThreadView × DB) :=
  match db.users.find? (fun u => u.id == other_user_id) with
  | none => .error .userNotFound
  | some other_user =>
    let withScope (pdoc : Option Product) : ThreadView × DB :=
      let scope := pdoc.map (fun p => p.id)
      let entries := (threadMessages db meId other_user.id scope).map (serializeEntry meId)
      let view : ThreadView :=
        { other_user := { id := other_user.id
                          name := other_user.first_name ++ " " ++ other_user.last_name }
          product := pdoc.map (fun p =>
            { id := p.id, name := p.product_name, is_sold := p.is_sold,
              price_usd := p.price_usd, image := p.images.head? })
          messages := entries }
      (view, { db with messages := db.messages.map (readFlip meId other_user.id scope) })
    match product_id with
    | none => .ok (withScope none)
    | some pid =>
      match db.products.find? (fun p => p.id == pid) with
      | none => .error .productNotFound
      | some product_doc => .ok (withScope (some product_doc))

/-- Field names declared on `Message` in `src/models.py` lines 77-85. -/
def messageModelFields : List String :=
  ["sender", "receiver", "content", "created_at", "is_read"]

/-- Keyword arguments passed to the `Message` constructor by
`send_message` (`src/routers/messages.py` lines 99-105). -/
def sendMessageKwargs : List String :=
  ["sender", "receiver", "content", "product", "created_at"]

/-- The fields actually persisted by the constructor call: pydantic
models ignore keyword arguments that are not declared fields (default
`extra="ignore"`), so only the kwargs that are declared survive. -/
def persistedMessageFields : List String :=
  sendMessageKwargs.filter (fun f => messageModelFields.contains f)

/-- Well-formedness of a store: every id a message references is a real
`PydanticObjectId` rendering — a nonempty hex string, so colon-free and
distinct from the literal `"no_product"` — and every listing reference
resolves to a stored product. -/
def oidLike (s : String) : Prop :=
  (':' ∉ s.data) ∧ s ≠ "no_product" ∧ s ≠ ""

instance (s : String) : Decidable (oidLike s) := by
  unfold oidLike; infer_instance

def WFdb (db : DB) : Prop :=
  ∀ m ∈ db.messages,
    oidLike m.sender ∧ oidLike m.receiver ∧
      (∀ pid, m.product = some pid → oidLike pid ∧ ∃ p ∈ db.products, p.id = pid)

instance (db : DB) : Decidable (WFdb db) := by
  unfold WFdb; infer_instance


/-! ## A concrete example store, used to witness the theorems below -/

def exBuyer : User := { id := "a1", first_name := "Al", last_name := "Buys" }

def exSeller : User := { id := "b2", first_name := "Bea", last_name := "Sells" }

def exSold : Product :=
  { id := "p1", product_name := "Desk", price_usd := 40,
    seller := .link "b2", images := ["desk.png"], is_sold := true }

def exMsg1 : Message :=
  { id := "m1", sender := "b2", receiver := "a1", content := "hello there",
    product := none, created_at := 1, is_read := false }

def exMsg2 : Message :=
  { id := "m2", sender := "a1", receiver := "b2",
    content := "0123456789012345678901234567890123456789X",
    product := some "p1", created_at := 2, is_read := false }

def exDB : DB :=
  { users := [exBuyer, exSeller], products := [exSold],
    messages := [exMsg1, exMsg2] }

def exSum2 : ConvSummary := mkSummary exDB "a1" exMsg2

def exTV : ThreadView :=
  match get_conversation exDB "a1" "b2" none with
  | .ok (tv, _) => tv
  | .error _ => { other_user := { id := "", name := "" }, product := none, messages := [] }

def exDB2 : DB :=
  match get_conversation exDB "a1" "b2" none with
  | .ok (_, d) => d
  | .error _ => exDB

def exTV2 : ThreadView :=
  match get_conversation exDB2 "a1" "b2" none with
  | .ok (tv, _) => tv
  | .error _ => { other_user := { id := "", name := "" }, product := none, messages := [] }

def exDB3 : DB :=
  match get_conversation exDB2 "a1" "b2" none with
  | .ok (_, d) => d
  | .error _ => exDB2

def exSelfMsg : Message :=
  { id := "m9", sender := "a1", receiver := "a1", content := "hi",
    product := none, created_at := 9, is_read := false }

/-! ## Helper lemmas -/

theorem colon_split {l₁ l₂ r₁ r₂ : List Char}
    (h₁ : ':' ∉ l₁) (h₂ : ':' ∉ l₂)
    (h : l₁ ++ ':' :: ':' :: r₁ = l₂ ++ ':' :: ':' :: r₂) :
    l₁ = l₂ ∧ r₁ = r₂ := by
  induction l₁ generalizing l₂ with
  | nil =>
    cases l₂ with
    | nil => simpa using h
    | cons c t =>
      exfalso
      simp only [List.nil_append, List.cons_append, List.cons.injEq] at h
      exact h₂ (h.1 ▸ List.mem_cons_self c t)
  | cons c t ih =>
    cases l₂ with
    | nil =>
      exfalso
      simp only [List.nil_append, List.cons_append, List.cons.injEq] at h
      exact h₁ (h.1 ▸ List.mem_cons_self c t)
    | cons c2 t2 =>
      simp only [List.cons_append, List.cons.injEq] at h
      obtain ⟨hc, ht⟩ := h
      have hrec := ih (fun hm => h₁ (List.mem_cons_of_mem _ hm))
        (fun hm => h₂ (List.mem_cons_of_mem _ hm)) ht
      exact ⟨by rw [hc, hrec.1], hrec.2⟩

theorem key_inj {x₁ x₂ : String} {s₁ s₂ : Option String}
    (hx₁ : ':' ∉ x₁.data) (hx₂ : ':' ∉ x₂.data)
    (hs₁ : ∀ q, s₁ = some q → q ≠ "no_product" ∧ q ≠ "")
    (hs₂ : ∀ q, s₂ = some q → q ≠ "no_product" ∧ q ≠ "")
    (h : x₁ ++ "::" ++ pyOr s₁ "no_product" = x₂ ++ "::" ++ pyOr s₂ "no_product") :
    x₁ = x₂ ∧ s₁ = s₂ := by
  have hcolon : ("::" : String).data = [':', ':'] := rfl
  have hd := congrArg String.data h
  simp only [String.data_append, hcolon, List.append_assoc, List.cons_append,
    List.nil_append] at hd
  obtain ⟨hx, hr⟩ := colon_split hx₁ hx₂ hd
  refine ⟨String.ext hx, ?_⟩
  have hrs : pyOr s₁ "no_product" = pyOr s₂ "no_product" := String.ext hr
  cases s₁ with
  | none =>
    cases s₂ with
    | none => rfl
    | some q =>
      obtain ⟨hq1, hq2⟩ := hs₂ q rfl
      simp only [pyOr, if_neg hq2] at hrs
      exact absurd hrs.symm hq1
  | some q =>
    obtain ⟨hq1, hq2⟩ := hs₁ q rfl
    cases s₂ with
    | none =>
      simp only [pyOr, if_neg hq2] at hrs
      exact absurd hrs hq1
    | some q2 =>
      obtain ⟨hq21, hq22⟩ := hs₂ q2 rfl
      simp only [pyOr, if_neg hq2, if_neg hq22] at hrs
      rw [hrs]

/-! ## C8: the identity reference resolver -/

/-- C8: `_product_seller_id` returns the canonical id string for each of
the four stored shapes of a seller reference — a lazy link (via its
fetched document's id), a mapping with an `"id"` key, a mapping with a
`"$id"` key whose value is raw or a nested `{"$oid": ...}` wrapper, and
a bare string — and returns `none` for any input matching none of the
four shapes. -/
theorem seller_ref_resolver_shapes :
    (∀ uid : String, _product_seller_id (.link uid) = some uid)
    ∧ (∀ (d : SellerDict) (v : String), d.idKey = some v →
        _product_seller_id (.dict d) = some v)
    ∧ (∀ (d : SellerDict) (v : String), d.idKey = none →
        d.dollarId = some (.oid v) → _product_seller_id (.dict d) = some v)
    ∧ (∀ (d : SellerDict) (v : String), d.idKey = none →
        d.dollarId = some (.raw v) → _product_seller_id (.dict d) = some v)
    ∧ (∀ s : String, _product_seller_id (.str s) = some s)
    ∧ _product_seller_id .other = none
    ∧ (∀ d : SellerDict, d.idKey = none → d.dollarId = none →
        _product_seller_id (.dict d) = none) := by
  refine ⟨fun _ => rfl, ?_, ?_, ?_, fun _ => rfl, rfl, ?_⟩ <;>
    intros <;> simp [_product_seller_id, *]

/-- C8 witness. -/
theorem seller_ref_resolver_shapes_witness :
    _product_seller_id (.dict { idKey := none, dollarId := some (.oid "64ab") })
      = some "64ab"
    ∧ _product_seller_id (.dict { idKey := none, dollarId := none }) = none :=
  ⟨seller_ref_resolver_shapes.2.2.1 _ "64ab" rfl rfl,
    seller_ref_resolver_shapes.2.2.2.2.2.2 _ rfl rfl⟩

/-! ## C1: the persisted message drops the listing reference -/

/-- C1: the `Message` constructor call in `send_message` passes a
`product` keyword argument, but the `Message` model of `src/models.py`
declares no such field, so pydantic drops it and the persisted record
carries no listing reference at all. -/
theorem message_model_drops_product_kwarg :
    "product" ∈ sendMessageKwargs
    ∧ "product" ∉ messageModelFields
    ∧ persistedMessageFields = ["sender", "receiver", "content", "created_at"] := by
  decide

/-! ## C9: the no-self-message invariant is bypassable -/

/-- C9: refuted.  The self-check (`messages.py` line 67) compares the
raw client string to `str(current_user.id)`, but the receiver is then
resolved through the case-insensitive `PydanticObjectId` parse (lines
72-75): a request carrying an uppercase rendering of the caller's own id
passes the raw-string check, resolves to the caller, and a message with
`sender = receiver` is persisted. -/
theorem self_message_bypass :
    "A1" ≠ exBuyer.id
    ∧ pyObjectId "A1" = exBuyer.id
    ∧ send_message exDB exBuyer
          { receiver_id := "A1", content := "hi", product_id := none } 9 "m9"
        = (.ok exSelfMsg, { exDB with messages := exDB.messages ++ [exSelfMsg] })
    ∧ exSelfMsg.sender = exSelfMsg.receiver :=
  ⟨by decide, by decide, rfl, rfl⟩

/-! ## C2: sold-listing lockout -/

/-- C2: a send tied to an existing listing whose `sold` flag is true
fails with the sold-item error (HTTP 400, "This item has been sold.
Messaging is closed." — the rejection the spec's taxonomy labels
`Forbidden`) and leaves the store untouched whenever the listing's
resolved seller differs from the current user, while the resolved seller
themself can still send. -/
theorem sold_item_lockout (db : DB) (u r : User) (data : MessageCreate)
    (now : Nat) (newId pid : String) (p : Product)
    (hself : data.receiver_id ≠ u.id)
    (hrecv : db.users.find? (fun x => x.id == pyObjectId data.receiver_id) = some r)
    (hpid : data.product_id = some pid)
    (hprod : db.products.find? (fun x => x.id == pid) = some p)
    (hsold : p.is_sold = true) :
    (u.id ≠ pyStr (_product_seller_id p.seller) →
      send_message db u data now newId = (.error .itemSold, db))
    ∧ (u.id = pyStr (_product_seller_id p.seller) →
      ∃ msg : Message,
        send_message db u data now newId
            = (.ok msg, { db with messages := db.messages ++ [msg] })
          ∧ msg.sender = u.id ∧ msg.is_read = false) := by
  have hbeq : (data.receiver_id == u.id) = false := by simp [hself]
  constructor
  · intro hne
    have hsellerbeq : (u.id == pyStr (_product_seller_id p.seller)) = false := by
      simp [hne]
    simp [send_message, hbeq, hrecv, hpid, hprod, hsold, hsellerbeq]
  · intro heq
    refine ⟨{ id := newId, sender := u.id, receiver := r.id,
              content := data.content, product := some p.id,
              created_at := now, is_read := false }, ?_, rfl, rfl⟩
    have hcond : (p.is_sold
        && !(u.id == pyStr (_product_seller_id p.seller))) = false := by
      simp [heq]
    simp [send_message, hbeq, hrecv, hpid, hprod, hcond]


/-! ## Inbox grouping lemmas -/

theorem inboxStep_of_seen (db : DB) (meId : String)
    (acc : List (String × ConvSummary)) (m : Message)
    (hmem : (acc.any (fun p => p.1 == convKey db meId m)) = true) :
    inboxStep db meId acc m = acc := by
  simp [inboxStep, hmem]

theorem inboxStep_of_new (db : DB) (meId : String)
    (acc : List (String × ConvSummary)) (m : Message)
    (hmem : ¬(acc.any (fun p => p.1 == convKey db meId m)) = true) :
    inboxStep db meId acc m
      = acc ++ [(convKey db meId m, mkSummary db meId m)] := by
  simp only [inboxStep]
  rw [if_neg]
  simpa using hmem

theorem foldl_inboxStep_find? (db : DB) (meId : String) (msgs : List Message)
    (acc : List (String × ConvSummary)) (k : String) :
    ((msgs.foldl (inboxStep db meId) acc).find? (fun p => p.1 == k)) =
      (acc.find? (fun p => p.1 == k)).or
        ((msgs.find? (fun m => convKey db meId m == k)).map
          (fun m => (convKey db meId m, mkSummary db meId m))) := by
  induction msgs generalizing acc with
  | nil => simp
  | cons m rest ih =>
    simp only [List.foldl_cons, List.find?_cons]
    by_cases hmem : (acc.any (fun p => p.1 == convKey db meId m)) = true
    · rw [inboxStep_of_seen db meId acc m hmem, ih]
      by_cases hk : (convKey db meId m == k) = true
      · obtain ⟨x, hx, hxk⟩ := List.any_eq_true.mp hmem
        have hxfind : ∃ q, acc.find? (fun p => p.1 == k) = some q := by
          rw [← Option.isSome_iff_exists]
          rw [List.find?_isSome]
          exact ⟨x, hx, by rw [beq_iff_eq.mp hk] at hxk; exact hxk⟩
        obtain ⟨q, hq⟩ := hxfind
        rw [hq]
        simp [hk]
      · simp only [Bool.not_eq_true] at hk
        rw [hk]
    · rw [inboxStep_of_new db meId acc m hmem, ih, List.find?_append]
      have haccnone : acc.find? (fun p => p.1 == k) = none ∨
          (convKey db meId m == k) = false := by
        by_cases hk : (convKey db meId m == k) = true
        · left
          rw [List.find?_eq_none]
          intro p hp hpk
          exact hmem (List.any_eq_true.mpr
            ⟨p, hp, by rw [← beq_iff_eq.mp hk] at hpk; exact hpk⟩)
        · right; simpa using hk
      by_cases hk : (convKey db meId m == k) = true
      · cases haccnone with
        | inl hnone =>
          rw [hnone]
          simp [hk]
        | inr hfalse => rw [hfalse] at hk; cases hk
      · have hkf : (convKey db meId m == k) = false := by simpa using hk
        rw [hkf]
        simp [hkf, Option.or_assoc]

theorem foldl_inboxStep_keys (db : DB) (meId : String) (msgs : List Message)
    (acc : List (String × ConvSummary)) (k : String) :
    (k ∈ (msgs.foldl (inboxStep db meId) acc).map (fun p => p.1)) ↔
      k ∈ acc.map (fun p => p.1) ∨ k ∈ msgs.map (convKey db meId) := by
  induction msgs generalizing acc with
  | nil => simp
  | cons m rest ih =>
    simp only [List.foldl_cons, List.map_cons, List.mem_cons]
    by_cases hmem : (acc.any (fun p => p.1 == convKey db meId m)) = true
    · rw [inboxStep_of_seen db meId acc m hmem, ih]
      have hin : convKey db meId m ∈ acc.map (fun p => p.1) := by
        obtain ⟨x, hx, hxk⟩ := List.any_eq_true.mp hmem
        exact List.mem_map.mpr ⟨x, hx, beq_iff_eq.mp hxk⟩
      constructor
      · rintro (h | h)
        · exact Or.inl h
        · exact Or.inr (Or.inr h)
      · rintro (h | h | h)
        · exact Or.inl h
        · exact Or.inl (h ▸ hin)
        · exact Or.inr h
    · rw [inboxStep_of_new db meId acc m hmem, ih]
      simp only [List.map_append, List.map_cons, List.map_nil, List.mem_append,
        List.mem_cons, List.not_mem_nil, or_false, List.mem_singleton]
      tauto

theorem foldl_inboxStep_nodup (db : DB) (meId : String) (msgs : List Message)
    (acc : List (String × ConvSummary))
    (h : (acc.map (fun p => p.1)).Nodup) :
    ((msgs.foldl (inboxStep db meId) acc).map (fun p => p.1)).Nodup := by
  induction msgs generalizing acc with
  | nil => exact h
  | cons m rest ih =>
    simp only [List.foldl_cons]
    by_cases hmem : (acc.any (fun p => p.1 == convKey db meId m)) = true
    · rw [inboxStep_of_seen db meId acc m hmem]
      exact ih acc h
    · rw [inboxStep_of_new db meId acc m hmem]
      apply ih
      rw [List.map_append, List.nodup_append]
      refine ⟨h, by simp, ?_⟩
      intro a ha hb
      simp only [List.map_cons, List.map_nil, List.mem_singleton] at hb
      subst hb
      obtain ⟨x, hx, hxk⟩ := List.mem_map.mp ha
      exact hmem (List.any_eq_true.mpr ⟨x, hx, by rw [hxk]; exact beq_self_eq_true _⟩)

theorem find?_key_self {α β : Type} [BEq β] [LawfulBEq β] (f : α → β) :
    ∀ (l : List α), (l.map f).Nodup → ∀ a ∈ l, l.find? (fun x => f x == f a) = some a := by
  intro l
  induction l with
  | nil => intro _ a ha; cases ha
  | cons b t ih =>
    intro hnd a ha
    by_cases hfb : (f b == f a) = true
    · have hfeq : f b = f a := beq_iff_eq.mp hfb
      cases List.mem_cons.mp ha with
      | inl h =>
        subst h
        simp only [List.find?_cons, hfb]
      | inr h =>
        exfalso
        simp only [List.map_cons, List.nodup_cons] at hnd
        exact hnd.1 (hfeq ▸ List.mem_map.mpr ⟨a, h, rfl⟩)
    · have hfbf : (f b == f a) = false := by simpa using hfb
      simp only [List.find?_cons, hfbf]
      cases List.mem_cons.mp ha with
      | inl h =>
        subst h
        exact absurd (beq_self_eq_true _) hfb
      | inr h =>
        simp only [List.map_cons, List.nodup_cons] at hnd
        exact ih hnd.2 a h

theorem summaryKey_mkSummary (db : DB) (meId : String) (m : Message) :
    summaryKey (mkSummary db meId m) = convKey db meId m := rfl

theorem inboxConvs_entry (db : DB) (meId : String) {p : String × ConvSummary}
    (hp : p ∈ inboxConvs db meId) :
    ∃ m, (inboxScan db meId).find? (fun m2 => convKey db meId m2 == p.1) = some m
      ∧ p = (convKey db meId m, mkSummary db meId m) := by
  have hnd : ((inboxConvs db meId).map (fun q => q.1)).Nodup :=
    foldl_inboxStep_nodup db meId _ [] (by simp)
  have hfind := find?_key_self (fun q : String × ConvSummary => q.1)
    (inboxConvs db meId) hnd p hp
  have h2 := foldl_inboxStep_find? db meId (inboxScan db meId) [] p.1
  rw [show ((inboxScan db meId).foldl (inboxStep db meId) [])
      = inboxConvs db meId from rfl] at h2
  rw [hfind] at h2
  simp only [List.find?_nil, Option.none_or] at h2
  cases hscan : (inboxScan db meId).find? (fun m2 => convKey db meId m2 == p.1) with
  | none => rw [hscan] at h2; cases h2
  | some m =>
    rw [hscan] at h2
    simp only [Option.map_some', Option.some.injEq] at h2
    exact ⟨m, rfl, h2⟩

/-! ## C3: one summary per conversation key, newest representative,
sorted output -/

/-- C3: `get_inbox` produces exactly one summary per distinct
conversation key occurring among the user's messages (no duplicate keys,
and a key appears iff some involved message carries it), each summary is
built from the first message encountered for its key in the newest-first
scan, and the rows come out sorted by representative timestamp
descending. -/
theorem inbox_partitions_and_sorts (db : DB) (meId : String) :
    ((get_inbox db meId).map summaryKey).Nodup
    ∧ (∀ k : String, k ∈ (get_inbox db meId).map summaryKey ↔
        k ∈ (inboxScan db meId).map (convKey db meId))
    ∧ (∀ c ∈ get_inbox db meId,
        ∃ m, (inboxScan db meId).find?
            (fun m2 => convKey db meId m2 == summaryKey c) = some m
          ∧ c = mkSummary db meId m)
    ∧ List.Sorted tsDesc (get_inbox db meId) := by
  have hperm : (get_inbox db meId).Perm ((inboxConvs db meId).map (fun p => p.2)) := by
    unfold get_inbox
    exact List.perm_insertionSort _ _
  have hkeys : ∀ p ∈ inboxConvs db meId, summaryKey p.2 = p.1 := by
    intro p hp
    obtain ⟨m, _, hpe⟩ := inboxConvs_entry db meId hp
    rw [hpe]
    exact summaryKey_mkSummary db meId m
  have hmapeq : (inboxConvs db meId).map (fun p => summaryKey p.2)
      = (inboxConvs db meId).map (fun p => p.1) :=
    List.map_congr_left hkeys
  have hmapkeys : ((get_inbox db meId).map summaryKey).Perm
      ((inboxConvs db meId).map (fun p => p.1)) := by
    have h1 := hperm.map summaryKey
    rwa [List.map_map, show (summaryKey ∘ fun p : String × ConvSummary => p.2)
      = fun p : String × ConvSummary => summaryKey p.2 from rfl, hmapeq] at h1
  refine ⟨?_, ?_, ?_, ?_⟩
  · exact hmapkeys.nodup_iff.mpr (foldl_inboxStep_nodup db meId _ [] (by simp))
  · intro k
    rw [hmapkeys.mem_iff]
    have h3 := foldl_inboxStep_keys db meId (inboxScan db meId) [] k
    rw [show ((inboxScan db meId).foldl (inboxStep db meId) [])
        = inboxConvs db meId from rfl] at h3
    simpa using h3
  · intro c hc
    obtain ⟨p, hp, hpc⟩ := List.mem_map.mp (hperm.mem_iff.mp hc)
    obtain ⟨m, hfind, hpe⟩ := inboxConvs_entry db meId hp
    refine ⟨m, ?_, ?_⟩
    · have h1 : summaryKey c = p.1 := by rw [← hpc]; exact hkeys p hp
      rw [h1]
      exact hfind
    · rw [← hpc, hpe]
  · exact List.sorted_insertionSort tsDesc _

/-- Every inbox row is built by `mkSummary` from some scanned message. -/
theorem get_inbox_mem_mk (db : DB) (meId : String) {c : ConvSummary}
    (hc : c ∈ get_inbox db meId) :
    ∃ m ∈ inboxScan db meId, c = mkSummary db meId m := by
  have hperm : (get_inbox db meId).Perm ((inboxConvs db meId).map (fun p => p.2)) := by
    unfold get_inbox
    exact List.perm_insertionSort _ _
  obtain ⟨p, hp, hpc⟩ := List.mem_map.mp (hperm.mem_iff.mp hc)
  obtain ⟨m, hfind, hpe⟩ := inboxConvs_entry db meId hp
  exact ⟨m, List.mem_of_find?_eq_some hfind, by rw [← hpc, hpe]⟩

/-! ## C6: preview truncation -/

/-- C6: every inbox row's `preview` equals the representative's content
verbatim when that content has at most 40 characters, and its first 40
characters followed by an ellipsis when it is longer. -/
theorem inbox_preview_truncation (db : DB) (meId : String) :
    ∀ c ∈ get_inbox db meId,
      c.preview = previewText c.last_message
      ∧ (c.last_message.length ≤ 40 → c.preview = c.last_message)
      ∧ (40 < c.last_message.length →
          c.preview = c.last_message.take 40 ++ "...") := by
  intro c hc
  obtain ⟨m, -, hcm⟩ := get_inbox_mem_mk db meId hc
  subst hcm
  have hlm : (mkSummary db meId m).last_message = m.content := rfl
  refine ⟨rfl, ?_, ?_⟩
  · intro hle
    rw [hlm] at hle
    show previewText m.content = m.content
    unfold previewText
    rw [if_neg (by omega)]
  · intro hgt
    rw [hlm] at hgt
    show previewText m.content = m.content.take 40 ++ "..."
    unfold previewText
    rw [if_pos hgt]

/-! ## Thread reader lemmas -/

theorem get_conversation_ok_inv (db : DB) (meId oid : String)
    (pids : Option String) (tv : ThreadView) (db2 : DB)
    (h : get_conversation db meId oid pids = .ok (tv, db2)) :
    tv.messages = (threadMessages db meId oid pids).map (serializeEntry meId)
    ∧ db2 = { db with messages := db.messages.map (readFlip meId oid pids) } := by
  unfold get_conversation at h
  cases hfind : db.users.find? (fun u => u.id == oid) with
  | none => rw [hfind] at h; cases h
  | some other =>
    have hoid : other.id = oid := by
      simpa [beq_iff_eq] using List.find?_some hfind
    cases pids with
    | none =>
      simp only [hfind, Except.ok.injEq, Prod.mk.injEq] at h
      obtain ⟨htv, hdb⟩ := h
      constructor
      · rw [← htv]
        simp [hoid]
      · rw [← hdb]
        simp [hoid]
    | some pid =>
      cases hprod : db.products.find? (fun p => p.id == pid) with
      | none => simp [hfind, hprod] at h
      | some pdoc =>
        have hpid : pdoc.id = pid := by
          simpa [beq_iff_eq] using List.find?_some hprod
        simp only [hfind, hprod, Except.ok.injEq, Prod.mk.injEq] at h
        obtain ⟨htv, hdb⟩ := h
        constructor
        · rw [← htv]
          simp [hoid, hpid]
        · rw [← hdb]
          simp [hoid, hpid]

theorem readFlip_fields (meId oid : String) (pids : Option String) (m : Message) :
    (readFlip meId oid pids m).sender = m.sender
    ∧ (readFlip meId oid pids m).receiver = m.receiver
    ∧ (readFlip meId oid pids m).product = m.product
    ∧ (readFlip meId oid pids m).id = m.id
    ∧ (readFlip meId oid pids m).content = m.content
    ∧ (readFlip meId oid pids m).created_at = m.created_at := by
  unfold readFlip
  split <;> exact ⟨rfl, rfl, rfl, rfl, rfl, rfl⟩

theorem readFlip_idem (meId oid : String) (pids : Option String) (m : Message) :
    readFlip meId oid pids (readFlip meId oid pids m)
      = readFlip meId oid pids m := by
  by_cases hc : (m.sender == oid && m.receiver == meId && m.product == pids) = true
  · simp [readFlip, hc]
  · simp [readFlip, hc]

/-! ## C4: the read-flip is exactly scoped -/

/-- C4: on a successful thread read, the store is rewritten pointwise by
`readFlip`: every stored message from the counterpart to the current user
in the requested listing scope ends up read, and every message whose
listing scope differs — or which is not from the counterpart to the
current user — is returned unchanged. -/
theorem thread_read_flip_scoped (db : DB) (meId oid : String)
    (pids : Option String) (tv : ThreadView) (db2 : DB)
    (h : get_conversation db meId oid pids = .ok (tv, db2)) :
    db2.messages = db.messages.map (readFlip meId oid pids)
    ∧ (∀ m ∈ db.messages,
        m.sender = oid → m.receiver = meId → m.product = pids →
          (readFlip meId oid pids m).is_read = true)
    ∧ (∀ m ∈ db.messages, m.product ≠ pids → readFlip meId oid pids m = m)
    ∧ (∀ m ∈ db.messages, ¬(m.sender = oid ∧ m.receiver = meId) →
        readFlip meId oid pids m = m) := by
  obtain ⟨-, hdb⟩ := get_conversation_ok_inv db meId oid pids tv db2 h
  refine ⟨by rw [hdb], ?_, ?_, ?_⟩
  · intro m _ hs hr hp
    have hc : (m.sender == oid && m.receiver == meId && m.product == pids) = true := by
      simp [hs, hr, hp]
    simp [readFlip, hc]
  · intro m _ hne
    have hc : (m.sender == oid && m.receiver == meId && m.product == pids) = false := by
      rw [Bool.eq_false_iff]
      intro hcontra
      simp only [Bool.and_eq_true, beq_iff_eq] at hcontra
      exact hne hcontra.2
    simp [readFlip, hc]
  · intro m _ hne
    have hc : (m.sender == oid && m.receiver == meId && m.product == pids) = false := by
      rw [Bool.eq_false_iff]
      intro hcontra
      simp only [Bool.and_eq_true, beq_iff_eq] at hcontra
      exact hne ⟨hcontra.1.1, hcontra.1.2⟩
    simp [readFlip, hc]

/-! ## C7: thread reading is idempotent on the store -/

/-- C7: two successive thread reads with the same arguments and no
intervening writes leave the store exactly as the first read left it —
the second read-flip is a no-op. -/
theorem thread_read_idempotent (db : DB) (meId oid : String)
    (pids : Option String) (tv1 tv2 : ThreadView) (db1 db2 : DB)
    (h1 : get_conversation db meId oid pids = .ok (tv1, db1))
    (h2 : get_conversation db1 meId oid pids = .ok (tv2, db2)) :
    db2 = db1 := by
  obtain ⟨-, hdb1⟩ := get_conversation_ok_inv db meId oid pids tv1 db1 h1
  obtain ⟨-, hdb2⟩ := get_conversation_ok_inv db1 meId oid pids tv2 db2 h2
  rw [hdb2, hdb1]
  simp only [List.map_map]
  congr 1
  apply List.map_congr_left
  intro m _
  exact readFlip_idem meId oid pids m

/-! ## C10: serialization happens before the read-flip -/

/-- C10: the thread view a successful `get_conversation` returns
serializes each message with the `is_read` flag it had in the pre-call
store, even though the same call flips the in-scope unread messages to
read in the store it leaves behind. -/
theorem thread_serializes_preflip (db : DB) (meId oid : String)
    (pids : Option String) (tv : ThreadView) (db2 : DB)
    (h : get_conversation db meId oid pids = .ok (tv, db2)) :
    tv.messages = (threadMessages db meId oid pids).map (serializeEntry meId)
    ∧ tv.messages.map (fun t => t.is_read)
        = (threadMessages db meId oid pids).map (fun m => m.is_read)
    ∧ (∀ m ∈ db2.messages, m.sender = oid → m.receiver = meId →
        m.product = pids → m.is_read = true) := by
  obtain ⟨htv, hdb⟩ := get_conversation_ok_inv db meId oid pids tv db2 h
  refine ⟨htv, ?_, ?_⟩
  · rw [htv, List.map_map]
    rfl
  · intro m hm hs hr hp
    rw [hdb] at hm
    obtain ⟨m0, hm0, heq⟩ := List.mem_map.mp hm
    obtain ⟨hfs, hfr, hfp, -⟩ := readFlip_fields meId oid pids m0
    rw [← heq] at hs hr hp
    rw [hfs] at hs
    rw [hfr] at hr
    rw [hfp] at hp
    have hc : (m0.sender == oid && m0.receiver == meId && m0.product == pids) = true := by
      simp [hs, hr, hp]
    rw [← heq]
    simp [readFlip, hc]

/-! ## Counting lemmas for the unread cross-check -/

theorem sum_map_addNat (K : List String) (f g : String → Nat) :
    (K.map (fun k => f k + g k)).sum = (K.map f).sum + (K.map g).sum := by
  induction K with
  | nil => rfl
  | cons k t ih =>
    simp only [List.map_cons, List.sum_cons, ih]
    omega

theorem sum_map_indicator_not_mem (K : List String) (c : String) (hc : c ∉ K) :
    (K.map (fun k => if c = k then (1 : Nat) else 0)).sum = 0 := by
  induction K with
  | nil => rfl
  | cons k t ih =>
    simp only [List.map_cons, List.sum_cons]
    rw [if_neg (fun h => hc (by rw [h]; exact List.mem_cons_self k t)),
      ih (fun h => hc (List.mem_cons_of_mem _ h))]

theorem sum_map_indicator_mem (K : List String) (c : String) :
    K.Nodup → c ∈ K →
      (K.map (fun k => if c = k then (1 : Nat) else 0)).sum = 1 := by
  induction K with
  | nil => intro _ hc; cases hc
  | cons k t ih =>
    intro hnd hc
    simp only [List.map_cons, List.sum_cons]
    rw [List.nodup_cons] at hnd
    cases List.mem_cons.mp hc with
    | inl h =>
      rw [if_pos h, sum_map_indicator_not_mem t c (by rw [h]; exact hnd.1)]
    | inr h =>
      rw [if_neg (fun hek => hnd.1 (by rw [← hek]; exact h)), ih hnd.2 h]

theorem length_eq_sum_countP (K : List String) (f : Message → String)
    (hK : K.Nodup) :
    ∀ U : List Message, (∀ u ∈ U, f u ∈ K) →
      (K.map (fun k => U.countP (fun u => f u == k))).sum = U.length := by
  intro U
  induction U with
  | nil =>
    intro _
    simp [List.countP_nil]
  | cons u t ih =>
    intro hU
    have hstep : ∀ k ∈ K, (u :: t).countP (fun x => f x == k)
        = t.countP (fun x => f x == k) + (if f u = k then 1 else 0) := by
      intro k _
      rw [List.countP_cons]
      congr 1
      by_cases h : f u = k <;> simp [h]
    rw [List.map_congr_left hstep, sum_map_addNat,
      ih (fun x hx => hU x (List.mem_cons_of_mem _ hx)),
      sum_map_indicator_mem K (f u) hK (hU u (List.mem_cons_self u t))]
    rfl

/-! ## Well-formed-store lemmas -/

theorem oidLike_otherOf {db : DB} (hwf : WFdb db) {m : Message}
    (hm : m ∈ db.messages) (meId : String) : oidLike (otherOf meId m) := by
  unfold otherOf
  split
  · exact (hwf m hm).2.1
  · exact (hwf m hm).1

theorem resolvedProduct_id_of_wf {db : DB} (hwf : WFdb db) {m : Message}
    (hm : m ∈ db.messages) :
    (resolvedProduct db m).map (fun p => p.id) = m.product := by
  cases hpd : m.product with
  | none => simp [resolvedProduct, hpd]
  | some pid =>
    obtain ⟨-, -, hp3⟩ := hwf m hm
    obtain ⟨-, p, hpmem, hpid⟩ := hp3 pid hpd
    have hexists : ∃ q, db.products.find? (fun q => q.id == pid) = some q := by
      rw [← Option.isSome_iff_exists, List.find?_isSome]
      exact ⟨p, hpmem, by simp [hpid]⟩
    obtain ⟨q, hq⟩ := hexists
    have hqid : q.id = pid := by
      simpa [beq_iff_eq] using List.find?_some hq
    simp [resolvedProduct, hpd, hq, hqid]

theorem convKey_eq_of_wf {db : DB} (hwf : WFdb db) (meId : String) {m : Message}
    (hm : m ∈ db.messages) :
    convKey db meId m = otherOf meId m ++ "::" ++ pyOr m.product "no_product" := by
  unfold convKey
  rw [resolvedProduct_id_of_wf hwf hm]

theorem otherOf_of_receiver {meId : String} {m : Message} (h : m.receiver = meId) :
    otherOf meId m = m.sender := by
  by_cases hs : (m.sender == meId) = true
  · simp only [otherOf, hs, if_true]
    rw [h, beq_iff_eq.mp hs]
  · simp [otherOf, hs]

theorem mkSummary_unread_of_wf {db : DB} (hwf : WFdb db) (meId : String)
    {m : Message} (hm : m ∈ db.messages) :
    (mkSummary db meId m).unread_count
      = unreadCountFor db meId (otherOf meId m) m.product := by
  show unreadCountFor db meId (otherOf meId m)
      ((resolvedProduct db m).map (fun p => p.id))
    = unreadCountFor db meId (otherOf meId m) m.product
  rw [resolvedProduct_id_of_wf hwf hm]

theorem unread_pred_iff {db : DB} (hwf : WFdb db) (meId : String)
    {x : String} (hx : ':' ∉ x.data) {s : Option String}
    (hs : ∀ q, s = some q → q ≠ "no_product" ∧ q ≠ "")
    {u : Message} (hu : u ∈ db.messages) :
    ((u.sender == x && u.receiver == meId && u.is_read == false
        && u.product == s) = true)
      ↔ ((((u.sender ++ "::" ++ pyOr u.product "no_product")
            == (x ++ "::" ++ pyOr s "no_product"))
          && (u.receiver == meId && u.is_read == false)) = true) := by
  simp only [Bool.and_eq_true, beq_iff_eq]
  constructor
  · rintro ⟨⟨⟨hsx, hrm⟩, hrd⟩, hps⟩
    exact ⟨by rw [hsx, hps], hrm, hrd⟩
  · rintro ⟨hk, hrm, hrd⟩
    have hxu : ':' ∉ u.sender.data := (hwf u hu).1.1
    have hsu : ∀ q, u.product = some q → q ≠ "no_product" ∧ q ≠ "" :=
      fun q hq => ((hwf u hu).2.2 q hq).1.2
    have hinj := key_inj hxu hx hsu hs hk
    exact ⟨⟨⟨hinj.1, hrm⟩, hrd⟩, hinj.2⟩

theorem inboxConvs_unread_count {db : DB} (hwf : WFdb db) (meId : String)
    {p : String × ConvSummary} (hp : p ∈ inboxConvs db meId) :
    p.2.unread_count
      = (db.messages.filter
            (fun m => m.receiver == meId && m.is_read == false)).countP
          (fun u => (u.sender ++ "::" ++ pyOr u.product "no_product") == p.1) := by
  obtain ⟨m, hfind, hpe⟩ := inboxConvs_entry db meId hp
  have hm : m ∈ db.messages := by
    have hscan := List.mem_of_find?_eq_some hfind
    unfold inboxScan at hscan
    have hmem := (List.perm_insertionSort newerFirst
      (involvedMessages db meId)).mem_iff.mp hscan
    exact (List.mem_filter.mp hmem).1
  rw [hpe]
  show (mkSummary db meId m).unread_count
    = (db.messages.filter
          (fun m2 => m2.receiver == meId && m2.is_read == false)).countP
        (fun u => (u.sender ++ "::" ++ pyOr u.product "no_product")
          == convKey db meId m)
  rw [mkSummary_unread_of_wf hwf meId hm, convKey_eq_of_wf hwf meId hm,
    List.countP_filter]
  show (db.messages.filter
      (fun u => u.sender == otherOf meId m && u.receiver == meId
        && u.is_read == false && u.product == m.product)).length
    = db.messages.countP _
  rw [← List.countP_eq_length_filter]
  apply List.countP_congr
  intro u hu
  exact unread_pred_iff hwf meId ((oidLike_otherOf hwf hm meId).1)
    (fun q hq => ((hwf m hm).2.2 q hq).1.2) hu

/-! ## C5: the global unread count equals the sum over the inbox -/

/-- C5: for a well-formed store (message references are ObjectId-like
strings and listing references resolve), the global unread count equals
the sum of the `unread_count` fields over all inbox rows: the
per-conversation counts partition the unread messages addressed to the
user by (counterpart, listing scope). -/
theorem unread_total_eq_inbox_sum (db : DB) (meId : String) (hwf : WFdb db) :
    get_unread_count db meId
      = ((get_inbox db meId).map (fun c => c.unread_count)).sum := by
  have hperm : (get_inbox db meId).Perm
      ((inboxConvs db meId).map (fun p => p.2)) := by
    unfold get_inbox
    exact List.perm_insertionSort _ _
  have hsum2 : ((get_inbox db meId).map (fun c => c.unread_count)).sum
      = ((inboxConvs db meId).map (fun p => p.2.unread_count)).sum := by
    have h1 := (hperm.map (fun c => c.unread_count)).sum_eq
    rw [List.map_map] at h1
    exact h1
  have hentries : (inboxConvs db meId).map (fun p => p.2.unread_count)
      = (inboxConvs db meId).map (fun p =>
          (db.messages.filter
              (fun m => m.receiver == meId && m.is_read == false)).countP
            (fun u => (u.sender ++ "::" ++ pyOr u.product "no_product") == p.1)) :=
    List.map_congr_left (fun p hp => inboxConvs_unread_count hwf meId hp)
  have hKnd : ((inboxConvs db meId).map (fun p => p.1)).Nodup :=
    foldl_inboxStep_nodup db meId _ [] (by simp)
  have hUK : ∀ u ∈ db.messages.filter
      (fun m => m.receiver == meId && m.is_read == false),
      (u.sender ++ "::" ++ pyOr u.product "no_product")
        ∈ (inboxConvs db meId).map (fun p => p.1) := by
    intro u hu
    have humem : u ∈ db.messages := (List.mem_filter.mp hu).1
    have hcond := (List.mem_filter.mp hu).2
    simp only [Bool.and_eq_true, beq_iff_eq] at hcond
    have hrecv : u.receiver = meId := hcond.1
    have hκ : u.sender ++ "::" ++ pyOr u.product "no_product"
        = convKey db meId u := by
      rw [convKey_eq_of_wf hwf meId humem, otherOf_of_receiver hrecv]
    have hscan : u ∈ inboxScan db meId := by
      unfold inboxScan
      rw [(List.perm_insertionSort newerFirst (involvedMessages db meId)).mem_iff]
      exact List.mem_filter.mpr ⟨humem, by simp [hrecv]⟩
    rw [hκ]
    have hk2 := foldl_inboxStep_keys db meId (inboxScan db meId) []
      (convKey db meId u)
    rw [show ((inboxScan db meId).foldl (inboxStep db meId) [])
        = inboxConvs db meId from rfl] at hk2
    exact hk2.mpr (Or.inr (List.mem_map.mpr ⟨u, hscan, rfl⟩))
  have hcount := length_eq_sum_countP ((inboxConvs db meId).map (fun p => p.1))
    (fun u => u.sender ++ "::" ++ pyOr u.product "no_product") hKnd
    (db.messages.filter (fun m => m.receiver == meId && m.is_read == false)) hUK
  have hlhs : get_unread_count db meId
      = (db.messages.filter
          (fun m => m.receiver == meId && m.is_read == false)).length := rfl
  rw [hlhs, hsum2, hentries, ← hcount, List.map_map]
  rfl

/-! ## Witnesses -/

set_option maxRecDepth 16000

/-- C2 witness: on the example store, a non-seller send to the sold
listing is rejected with the sold-item error and the store is unchanged,
while the resolved seller's send to the same listing succeeds. -/
theorem sold_item_lockout_witness :
    send_message exDB exBuyer
        { receiver_id := "b2", content := "hi", product_id := some "p1" } 5 "m9"
      = (.error .itemSold, exDB)
    ∧ ∃ msg : Message,
        send_message exDB exSeller
            { receiver_id := "a1", content := "hi", product_id := some "p1" } 6 "m9"
          = (.ok msg, { exDB with messages := exDB.messages ++ [msg] })
        ∧ msg.sender = exSeller.id ∧ msg.is_read = false :=
  ⟨(sold_item_lockout exDB exBuyer exSeller
      { receiver_id := "b2", content := "hi", product_id := some "p1" } 5 "m9" "p1"
      exSold (by decide) (by decide) rfl (by decide) rfl).1 (by decide),
    (sold_item_lockout exDB exSeller exBuyer
      { receiver_id := "a1", content := "hi", product_id := some "p1" } 6 "m9" "p1"
      exSold (by decide) (by decide) rfl (by decide) rfl).2 (by decide)⟩

/-- C3 witness: on the example store, the key of the listing-scoped
conversation appears in the inbox exactly as it appears in the scan, and
the listing-scoped row is built from the first scanned message of its
key. -/
theorem inbox_partitions_and_sorts_witness :
    ("b2::p1" ∈ (get_inbox exDB "a1").map summaryKey ↔
      "b2::p1" ∈ (inboxScan exDB "a1").map (convKey exDB "a1"))
    ∧ ∃ m, (inboxScan exDB "a1").find?
          (fun m2 => convKey exDB "a1" m2 == summaryKey exSum2) = some m
        ∧ exSum2 = mkSummary exDB "a1" m :=
  ⟨(inbox_partitions_and_sorts exDB "a1").2.1 "b2::p1",
    (inbox_partitions_and_sorts exDB "a1").2.2.1 exSum2 (by decide)⟩

/-- C4 witness: the unscoped thread read on the example store rewrites
the message list pointwise by `readFlip`. -/
theorem thread_read_flip_scoped_witness :
    exDB2.messages = exDB.messages.map (readFlip "a1" "b2" none)
    ∧ readFlip "a1" "b2" none exMsg2 = exMsg2 :=
  ⟨(thread_read_flip_scoped exDB "a1" "b2" none exTV exDB2 rfl).1,
    (thread_read_flip_scoped exDB "a1" "b2" none exTV exDB2 rfl).2.2.1 exMsg2
      (by decide) (by decide)⟩

/-- C5 witness: on the example store (which is well formed), the global
unread count equals the sum of the inbox rows' unread counts. -/
theorem unread_total_eq_inbox_sum_witness :
    get_unread_count exDB "a1"
      = ((get_inbox exDB "a1").map (fun c => c.unread_count)).sum :=
  unread_total_eq_inbox_sum exDB "a1" (by decide)

/-- C6 witness: the example row whose representative content has exactly
41 characters gets a 40-character prefix plus ellipsis as preview. -/
theorem inbox_preview_truncation_witness :
    exSum2.last_message.length = 41
    ∧ exSum2.preview = exSum2.last_message.take 40 ++ "..." :=
  ⟨by decide,
    (inbox_preview_truncation exDB "a1" exSum2 (by decide)).2.2 (by decide)⟩

/-- C7 witness: reading the same thread twice on the example store
leaves the store exactly as the first read left it. -/
theorem thread_read_idempotent_witness : exDB3 = exDB2 :=
  thread_read_idempotent exDB "a1" "b2" none exTV exTV2 exDB2 exDB3 rfl rfl

/-- C10 witness: the thread view returned by the example read reports
the pre-flip read flags. -/
theorem thread_serializes_preflip_witness :
    exTV.messages.map (fun t => t.is_read)
      = (threadMessages exDB "a1" "b2" none).map (fun m => m.is_read) :=
  (thread_serializes_preflip exDB "a1" "b2" none exTV exDB2 rfl).2.1

end Marketplace
